import Mathlib

/-!
# Verification of the pyMLChurn core against its specification

Shallow embedding of the core logic of the pyMLChurn repository:
the refresh gate (`src/pymlchurn/sp_runner.py`), the business-rule
churn evaluator (`src/pymlchurn/cli.py`), and the scoring/explanation
engine (`src/pymlchurn/ml.py`).  Timestamps are modelled as integers
(an abstract time unit); the serialisation of a timestamp to its stored
string and the parse back (Python `datetime.isoformat` /
`datetime.fromisoformat`, which raises on malformed input) are modelled
by a pair of functions `fmt : Int → String` and `parse : String → Option Int`,
with parse failure (`none`) standing for the raised-and-caught exception.
-/

namespace PyMLChurn

/-! ## Refresh gate state (`sp_runner.py`)

The persisted state is a JSON object mapping a composite key to the ISO
timestamp string of the last successful run.  We model it as an
association list from keys to stored strings, with Python-dict update
semantics (assignment replaces the value of an existing key in place,
otherwise appends). -/

abbrev GateState := List (String × String)

/-- `state.get(key)` on the loaded dict. -/
def lookupState (st : GateState) (k : String) : Option String :=
  (st.find? (fun p => p.1 = k)).map (·.2)

/-- `state[key] = v` (Python dict assignment). -/
def setState (st : GateState) (k v : String) : GateState :=
  if (st.find? (fun p => p.1 = k)).isSome then
    st.map (fun p => if p.1 = k then (k, v) else p)
  else
    st ++ [(k, v)]

/-- Python `str.lower()`, per-character lowercasing (the gate keys are
ASCII identifiers, on which `str.lower` and `Char.toLower` agree). -/
def strLower (s : String) : String := ⟨s.data.map Char.toLower⟩

/-- Embedding of `_sp_key` (sp_runner.py lines 35-41): the gate key is the
`"|"`-joined lowercase of server, database, schema and procedure name. -/
def spKey (server database schema spName : String) : String :=
  String.intercalate "|" [strLower server, strLower database, strLower schema, strLower spName]

/-- Embedding of `should_run` (sp_runner.py lines 52-63) for an
already-loaded state.  `iso = ""` reflects Python's `if not iso:` check
(both a missing key and an empty stored string fall into the run branch);
`parse iso = none` reflects `datetime.fromisoformat` raising and the
`except` returning `(True, None)`.  `ttl` is the policy TTL in the same
abstract time unit as `now`. -/
def shouldRun (st : GateState) (key : String) (parse : String → Option Int)
    (now ttl : Int) : Bool × Option Int :=
  match lookupState st key with
  | none => (true, none)
  | some iso =>
    if iso = "" then (true, none)
    else
      match parse iso with
      | none => (true, none)
      | some last => (decide (now ≥ last + ttl), some last)

/-- Embedding of `mark_ran` (sp_runner.py lines 66-70): store the
formatted current time under the key. -/
def markRan (st : GateState) (key : String) (fmt : Int → String) (now : Int) : GateState :=
  setState st key (fmt now)

/-- Embedding of `maybe_run_sp` (sp_runner.py lines 73-84), for a run in
which the stored procedure execution itself succeeds (its failure would
raise before `mark_ran`, which is outside the claims considered here).
Returns (ran, reason, new persisted state). -/
def maybeRunSp (st : GateState) (key : String) (parse : String → Option Int)
    (fmt : Int → String) (now ttl : Int) (force : Bool) : Bool × String × GateState :=
  if force then
    (true, "forced", markRan st key fmt now)
  else
    let dr := shouldRun st key parse now ttl
    if !dr.1 then
      (false, "recent", st)
    else
      (true, "ttl_expired", markRan st key fmt now)

/-- Embedding of `_load_state` (sp_runner.py lines 21-27).
`exists` models `STATE_FILE.exists()`; `readResult` models
`STATE_FILE.read_text()` (which can raise, `Except.error`); `parse`
models `json.loads` with `none` for a raised `JSONDecodeError`.  The
`try/except` returning `{}` is the `.getD []` / error branches. -/
def loadState (ex : Bool) (readResult : Except String String)
    (parse : String → Option GateState) : GateState :=
  if !ex then []
  else
    match readResult with
    | .error _ => []
    | .ok txt => (parse txt).getD []

/-- Split a character list on a separator character. -/
def splitOnChar (c : Char) : List Char → List (List Char)
  | [] => [[]]
  | a :: rest =>
    let r := splitOnChar c rest
    if a = c then [] :: r
    else
      match r with
      | [] => [[a]]
      | g :: gs => (a :: g) :: gs

/-- A minimal concrete stand-in for `json.loads` of the flat
string-to-string object stored by the gate, used to instantiate the
parse-parametric theorems on concrete malformed inputs: `"k=v;k2=v2"`
parses to the corresponding mapping, anything else fails. -/
def parseKV (s : String) : Option GateState :=
  (splitOnChar ';' s.data).mapM (fun l =>
    match splitOnChar '=' l with
    | [k, v] => some (String.mk k, String.mk v)
    | _ => none)

/-- The value of a decimal digit character, if it is one. -/
def digitVal (c : Char) : Option ℕ :=
  if '0' ≤ c ∧ c ≤ '9' then some (c.toNat - '0'.toNat) else none

/-- Read a non-empty decimal digit string, failing on any non-digit. -/
def decDigitsAux : List Char → ℕ → Option ℕ
  | [], acc => some acc
  | c :: rest, acc =>
    match digitVal c with
    | none => none
    | some d => decDigitsAux rest (acc * 10 + d)

/-- A concrete integer-string parse used to instantiate the
parse-parametric gate theorems: timestamps are modelled as integers and
their stored form as the decimal string, with any non-numeric stored
string failing to parse (standing for `datetime.fromisoformat`
raising). -/
def parseIntStr (s : String) : Option Int :=
  match s.data with
  | [] => none
  | '-' :: rest =>
    match rest with
    | [] => none
    | _ => (decDigitsAux rest 0).map (fun n => -(n : Int))
  | l => (decDigitsAux l 0).map (fun n => (n : Int))

/-! ## Business-rule churn evaluator (`cli.py` lines 178-206)

The rule is a pure function of the per-record grace flag and the number
of days since the last purchase (the code clips the day count at 0, so
it is a natural number here).  Output: (threshold, churned_now, reason). -/

/-- Embedding of the business-rule block of `main` (cli.py lines 183-201):
`threshold = 90 + (30 if in_grace else 0)`,
`churned_now = 1 if days >= threshold else 0`, and the four reason cases. -/
def businessRule (inGrace : Bool) (days : ℕ) : ℕ × ℕ × String :=
  let threshold : ℕ := 90 + (if inGrace then 30 else 0)
  let churned : ℕ := if threshold ≤ days then 1 else 0
  let reason : String :=
    if churned = 1 then
      if inGrace ∧ 90 < threshold then s!"No purchases for {days} days; Grace period exceeded"
      else s!"No purchases for {days} days"
    else
      if inGrace ∧ days < threshold then "In renewal grace period (extra 30 days)"
      else if days < 90 then "Recent purchase within last 90 days"
      else "Within adjusted threshold"
  (threshold, churned, reason)

/-- A pandas cell of the `in_renewal_grace` column: a numeric value or the
missing-value marker NaN (a float, hence truthy in Python). -/
inductive PdCell where
  | num (q : ℚ)
  | nan
deriving DecidableEq

/-- Embedding of `Series.astype(bool)` on one cell (cli.py line 182):
Python's `bool(x)` on a float is `x != 0`, and `bool(nan)` is `True`
(NaN is a non-zero float).  The result dtype is `bool`, which cannot
hold a missing value. -/
def astypeBool : PdCell → Bool
  | .num q => q ≠ 0
  | .nan => true

/-- Embedding of `.fillna(False)` on a cell of an already-bool series:
`none` (a missing value) becomes `false`, present values pass through. -/
def fillnaFalse : Option Bool → Bool
  | none => false
  | some b => b

/-- The `in_grace` value computed by cli.py line 182,
`df.get('in_renewal_grace').astype(bool).fillna(False)`: the cast to
bool happens first and never yields a missing value, so `fillna(False)`
acts on `some (astypeBool c)`. -/
def inGraceOf (c : PdCell) : Bool := fillnaFalse (some (astypeBool c))

/-! ## Scoring and explanation engine (`ml.py`)

The contribution vector of a row is a list of rationals (one per
feature).  The rendering of a single feature into a phrase
(`_describe`, combining the raw value, the friendly label and the risk
direction) is abstracted as a function `d : ℕ → String` from feature
index to rendered phrase, with `""` standing for a phrase that does not
render (Python falsy string). -/

/-- The fixed generic fallback phrase of ml.py line 343. -/
def fallbackPhrase : String := "elevated churn risk across multiple signals"

/-- Insert index `i` into a list of indices kept in descending `key`
order. -/
def insertDesc (key : ℕ → ℚ) (i : ℕ) : List ℕ → List ℕ
  | [] => [i]
  | j :: rest => if key j ≤ key i then i :: j :: rest else j :: insertDesc key i rest

/-- Sort a list of indices into descending `key` order. -/
def sortDesc (key : ℕ → ℚ) : List ℕ → List ℕ
  | [] => []
  | i :: rest => insertDesc key i (sortDesc key rest)

/-- Embedding of the ranking of ml.py lines 323-326:
`np.argsort(contrib)[::-1]` for predicted-churn rows and
`np.argsort(np.abs(contrib))[::-1]` otherwise, i.e. the feature indices
in descending order of signed (resp. absolute) contribution.  numpy's
default quicksort is unstable, so the order among tied keys is
unspecified; no property proved below depends on it. -/
def orderFor (pred : Int) (contrib : List ℚ) : List ℕ :=
  if pred = 1 then sortDesc (fun i => contrib.getD i 0) (List.range contrib.length)
  else sortDesc (fun i => |contrib.getD i 0|) (List.range contrib.length)

/-- Embedding of the phrase-collection loop of ml.py lines 328-342:
walk the ranked indices; stop once 3 phrases are kept; for
predicted-churn rows skip non-positive contributions; skip features
whose phrase renders empty (Python `if phrase:`). -/
def selectLoop (pred : Int) (contrib : List ℚ) (d : ℕ → String) :
    List ℕ → List String → List String
  | [], acc => acc
  | idx :: rest, acc =>
    if 3 ≤ acc.length then acc
    else if pred = 1 ∧ contrib.getD idx 0 ≤ 0 then selectLoop pred contrib d rest acc
    else if d idx = "" then selectLoop pred contrib d rest acc
    else selectLoop pred contrib d rest (acc ++ [d idx])

/-- The phrase list produced for one row (ml.py lines 323-342). -/
def selectPhrases (pred : Int) (contrib : List ℚ) (d : ℕ → String) : List String :=
  selectLoop pred contrib d (orderFor pred contrib) []

/-- The reason string for one row (ml.py line 343):
`"; ".join(phrases) if phrases else` the fixed fallback. -/
def rowReason (pred : Int) (contrib : List ℚ) (d : ℕ → String) : String :=
  let ps := selectPhrases pred contrib d
  if ps.isEmpty then fallbackPhrase else String.intercalate "; " ps

/-- Embedding of the reason loop together with its surrounding
`try/except` (ml.py lines 307 and 312-346): `reasons` starts as `""`
for every row; each successfully processed row overwrites its slot with
the computed reason; the first raising row aborts the whole loop
(`except Exception: pass`), leaving its own slot and every later slot
at `""`. `steps` is the per-row reason computation, an `Except` in
place of a raised exception. -/
def buildReasons : List (Except String String) → List String
  | [] => []
  | .ok r :: rest => r :: buildReasons rest
  | .error _ :: rest => "" :: rest.map (fun _ => "")

/-- Embedding of `pre.transform(X)` (ml.py line 310): sklearn's
`ColumnTransformer.transform` first calls `check_is_fitted` and raises
`NotFittedError` when the pipeline was never fit; otherwise it returns
the transformed matrix, abstracted here as the supplied `Xt`. -/
def preTransform (fitted : Bool) (Xt : List (List ℚ)) : Except String (List (List ℚ)) :=
  if fitted then .ok Xt else .error "NotFittedError"

/-- The fields of the result frame built by `train_and_predict` that
the claims are about. -/
structure TPOutput where
  proba : List ℚ
  pred : List Int
  reasons : List String
deriving DecidableEq

/-- Embedding of the control flow of `train_and_predict`
(ml.py lines 265-349).  `y?` is the coerced label vector, present iff
`cfg.target_col` names a column of the dataframe (lines 275-278).
`fitProba` abstracts `pipe.fit(X, y); pipe.predict_proba(X)[:, 1]`
(lines 283-284); `fittedXt` abstracts the matrix `pre.transform(X)`
returns once the pipeline is fitted (line 310); `rowStep` abstracts the
body of the reason loop for one row — contribution choice, ranking and
phrase assembly as in `rowReason` — which can raise (lines 313-343).
When `y?` is absent the code sets probabilities and labels to zero
(lines 287-289) and then still calls `pre.transform(X)` at line 310,
outside any `try`, on the never-fitted pipeline. -/
def trainAndPredict (X : List (List ℚ)) (y? : Option (List Int))
    (fitProba : List Int → List ℚ) (fittedXt : List (List ℚ))
    (rowStep : ℕ → Except String String) : Except String TPOutput :=
  let fitted := y?.isSome
  let pp : List ℚ × List Int :=
    match y? with
    | some y =>
      let proba := fitProba y
      (proba, proba.map (fun p => if (1 : ℚ)/2 ≤ p then 1 else 0))
    | none => (List.replicate X.length 0, List.replicate X.length 0)
  match preTransform fitted fittedXt with
  | .error e => .error e
  | .ok _ => .ok ⟨pp.1, pp.2, buildReasons ((List.range X.length).map rowStep)⟩

/-! ## Standardization safeguard (`ml.py` lines 42-61)

`build_pipeline` standardizes each feature with
`StandardScaler(with_mean=True, with_std=True)` before the logistic
classifier.  The scaler subtracts the per-feature mean and divides by
the per-feature scale, the square root of the population variance;
sklearn's `_handle_zeros_in_scale` replaces a zero scale by 1, which is
the zero-variance safeguard the spec requires.  The logistic
classifier's probability is the sigmoid of a real score.  Means and
variances of rational inputs are rational (computable); only the square
root and the sigmoid live in ℝ. -/

/-- Column `j` of the feature matrix. -/
def colEntries (M : List (List ℚ)) (j : ℕ) : List ℚ := M.map (fun row => row.getD j 0)

/-- Per-feature mean fit by the scaler. -/
def colMean (M : List (List ℚ)) (j : ℕ) : ℚ := (colEntries M j).sum / M.length

/-- Per-feature population variance fit by the scaler. -/
def colVar (M : List (List ℚ)) (j : ℕ) : ℚ :=
  ((colEntries M j).map (fun x => (x - colMean M j)^2)).sum / M.length

/-- Per-feature scale: square root of the variance, with sklearn's
zero-scale safeguard (`_handle_zeros_in_scale`): a zero scale is
replaced by 1 so that constant features standardize to 0 instead of
dividing by zero. -/
noncomputable def stdScale (M : List (List ℚ)) (j : ℕ) : ℝ :=
  if colVar M j = 0 then 1 else Real.sqrt (colVar M j)

/-- The standardized value of entry (i, j): centred by the column mean,
divided by the safeguarded scale. -/
noncomputable def standardized (M : List (List ℚ)) (i j : ℕ) : ℝ :=
  (((M.getD i []).getD j 0 : ℝ) - (colMean M j : ℝ)) / stdScale M j

/-- The logistic probability of a real score, as produced by
`LogisticRegression.predict_proba`. -/
noncomputable def sigmoid (t : ℝ) : ℝ := 1 / (1 + Real.exp (-t))

lemma find_map_update (st : GateState) (k v : String)
    (h : (st.find? (fun p => p.1 = k)).isSome) :
    (st.map (fun p => if p.1 = k then (k, v) else p)).find? (fun p => p.1 = k)
      = some (k, v) := by
  induction st with
  | nil => simp at h
  | cons hd tl ih =>
    by_cases hk : hd.1 = k
    · simp [List.find?_cons, hk]
    · simp only [List.map_cons, if_neg hk]
      rw [List.find?_cons_of_neg _ (by simpa using hk)]
      apply ih
      rw [List.find?_cons_of_neg _ (by simpa using hk)] at h
      exact h

lemma find_append_new (st : GateState) (k v : String)
    (h : st.find? (fun p => p.1 = k) = none) :
    (st ++ [(k, v)]).find? (fun p => p.1 = k) = some (k, v) := by
  induction st with
  | nil => simp [List.find?]
  | cons hd tl ih =>
    by_cases hk : hd.1 = k
    · rw [List.find?_cons_of_pos _ (by simpa using hk)] at h
      exact absurd h (by simp)
    · rw [List.cons_append, List.find?_cons_of_neg _ (by simpa using hk)]
      apply ih
      rw [List.find?_cons_of_neg _ (by simpa using hk)] at h
      exact h

lemma lookupState_setState_self (st : GateState) (k v : String) :
    lookupState (setState st k v) k = some v := by
  unfold lookupState setState
  by_cases h : (st.find? (fun p => p.1 = k)).isSome
  · rw [if_pos h, find_map_update st k v h]
    rfl
  · rw [if_neg h, find_append_new st k v (Option.not_isSome_iff_eq_none.mp h)]
    rfl

/-- C7: two refresh targets whose server, database, schema and procedure
name differ only in letter case (formalized: the components agree after
lowercasing) derive equal gate keys, so they collide in the persisted
state. -/
theorem spKey_case_insensitive (s₁ s₂ d₁ d₂ c₁ c₂ n₁ n₂ : String)
    (hs : strLower s₁ = strLower s₂) (hd : strLower d₁ = strLower d₂)
    (hc : strLower c₁ = strLower c₂) (hn : strLower n₁ = strLower n₂) :
    spKey s₁ d₁ c₁ n₁ = spKey s₂ d₂ c₂ n₂ := by
  unfold spKey
  rw [hs, hd, hc, hn]

/-- Witness for C7 at a concrete pair of targets differing only in case. -/
theorem spKey_case_insensitive_witness :
    spKey "SQLPROD01" "SAP" "DBO" "SP_Build_Customer_Churn_Cadence_V1"
      = spKey "sqlprod01" "sap" "dbo" "sp_build_customer_churn_cadence_v1" :=
  spKey_case_insensitive _ _ _ _ _ _ _ _ (by decide) (by decide) (by decide) (by decide)

/-- C5: the refresh-gate TTL policy.  With `force = false`: an Unknown
key (no stored timestamp) runs and records the formatted now; a stored
timestamp `t` with `now ≥ t + ttl` runs and records the formatted now;
a stored timestamp `t` with `now < t + ttl` skips with the state
returned unchanged.  With `force = true` it always runs and records the
formatted now.  The first conjunct states that the recorded state
indeed maps the key to the formatted now. -/
theorem maybeRunSp_ttl_policy (st : GateState) (key : String)
    (parse : String → Option Int) (fmt : Int → String) (now ttl : Int) :
    lookupState (setState st key (fmt now)) key = some (fmt now)
  ∧ (lookupState st key = none →
      maybeRunSp st key parse fmt now ttl false
        = (true, "ttl_expired", setState st key (fmt now)))
  ∧ (∀ iso t, lookupState st key = some iso → iso ≠ "" → parse iso = some t →
      t + ttl ≤ now →
      maybeRunSp st key parse fmt now ttl false
        = (true, "ttl_expired", setState st key (fmt now)))
  ∧ (∀ iso t, lookupState st key = some iso → iso ≠ "" → parse iso = some t →
      now < t + ttl →
      maybeRunSp st key parse fmt now ttl false = (false, "recent", st))
  ∧ maybeRunSp st key parse fmt now ttl true
      = (true, "forced", setState st key (fmt now)) := by
  refine ⟨lookupState_setState_self st key (fmt now), ?_, ?_, ?_, ?_⟩
  · intro h
    simp [maybeRunSp, shouldRun, markRan, h]
  · intro iso t hl hne hp hdue
    have : now ≥ t + ttl := hdue
    simp [maybeRunSp, shouldRun, markRan, hl, hne, hp, this]
  · intro iso t hl hne hp hearly
    have : ¬ now ≥ t + ttl := not_le.mpr hearly
    simp [maybeRunSp, shouldRun, markRan, hl, hne, hp, this]
  · simp [maybeRunSp, markRan]

/-- Witness for C5: concrete runs through all four branches, with
timestamps serialized by `toString` and parsed by `parseIntStr`. -/
theorem maybeRunSp_ttl_policy_witness :
    maybeRunSp [] "srv|sap|dbo|sp" parseIntStr toString 100 24 false
      = (true, "ttl_expired", setState [] "srv|sap|dbo|sp" (toString 100))
  ∧ maybeRunSp [("srv|sap|dbo|sp", "10")] "srv|sap|dbo|sp" parseIntStr toString 100 24 false
      = (true, "ttl_expired", setState [("srv|sap|dbo|sp", "10")] "srv|sap|dbo|sp" (toString 100))
  ∧ maybeRunSp [("srv|sap|dbo|sp", "90")] "srv|sap|dbo|sp" parseIntStr toString 100 24 false
      = (false, "recent", [("srv|sap|dbo|sp", "90")])
  ∧ maybeRunSp [("srv|sap|dbo|sp", "90")] "srv|sap|dbo|sp" parseIntStr toString 100 24 true
      = (true, "forced", setState [("srv|sap|dbo|sp", "90")] "srv|sap|dbo|sp" (toString 100)) := by
  refine ⟨?_, ?_, ?_, ?_⟩
  · exact (maybeRunSp_ttl_policy [] "srv|sap|dbo|sp" parseIntStr toString 100 24).2.1 rfl
  · exact (maybeRunSp_ttl_policy [("srv|sap|dbo|sp", "10")] "srv|sap|dbo|sp"
      parseIntStr toString 100 24).2.2.1 "10" 10 rfl (by decide) (by decide) (by decide)
  · exact (maybeRunSp_ttl_policy [("srv|sap|dbo|sp", "90")] "srv|sap|dbo|sp"
      parseIntStr toString 100 24).2.2.2.1 "90" 90 rfl (by decide) (by decide) (by decide)
  · exact (maybeRunSp_ttl_policy [("srv|sap|dbo|sp", "90")] "srv|sap|dbo|sp"
      parseIntStr toString 100 24).2.2.2.2

/-- C6: loading the persisted gate state never fails: a missing file,
an unreadable file (read raises) and contents that do not parse as JSON
all yield the empty mapping, under which every key is Unknown. -/
theorem loadState_corrupt_empty (rd : Except String String)
    (parse : String → Option GateState) :
    loadState false rd parse = []
  ∧ (∀ e, rd = .error e → loadState true rd parse = [])
  ∧ (∀ txt, rd = .ok txt → parse txt = none → loadState true rd parse = []) := by
  refine ⟨rfl, ?_, ?_⟩
  · intro e h
    simp [loadState, h]
  · intro txt h hp
    simp [loadState, h, hp]

/-- Witness for C6: an unreadable file and a non-parsing payload, the
latter with the concrete `parseKV` stand-in for `json.loads`. -/
theorem loadState_corrupt_empty_witness :
    loadState true (.error "PermissionError") parseKV = []
  ∧ loadState true (.ok "this is not a state object") parseKV = [] := by
  constructor
  · exact (loadState_corrupt_empty (.error "PermissionError") parseKV).2.1
      "PermissionError" rfl
  · exact (loadState_corrupt_empty (.ok "this is not a state object") parseKV).2.2
      "this is not a state object" rfl (by decide)

/-- C10: a stored per-key timestamp entry that exists but does not
parse (the `datetime.fromisoformat` call raises) makes `should_run`
fail open to `(True, None)`: run now, no last-run time reported. -/
theorem shouldRun_malformed_entry (st : GateState) (key : String)
    (parse : String → Option Int) (now ttl : Int) (s : String)
    (hl : lookupState st key = some s) (hp : parse s = none) :
    shouldRun st key parse now ttl = (true, none) := by
  unfold shouldRun
  rw [hl]
  by_cases h : s = "" <;> simp [h, hp]

/-- Witness for C10: a key whose stored value is not a timestamp. -/
theorem shouldRun_malformed_entry_witness :
    shouldRun [("srv|sap|dbo|sp", "not-a-timestamp")] "srv|sap|dbo|sp"
      parseIntStr 100 24 = (true, none) :=
  shouldRun_malformed_entry [("srv|sap|dbo|sp", "not-a-timestamp")] "srv|sap|dbo|sp"
    parseIntStr 100 24 "not-a-timestamp" rfl (by decide)

/-- C4: the business rule computes `threshold = 90 + (30 if in_grace
else 0)` and `churned_now = 1` exactly when `days_since_purchase ≥
threshold`; in particular `in_grace = false, days = 89` yields
churned 0 with reason "Recent purchase within last 90 days", and
`in_grace = false, days = 90` yields churned 1 with reason
"No purchases for 90 days". -/
theorem businessRule_threshold (inGrace : Bool) (days : ℕ) :
    (businessRule inGrace days).1 = 90 + (if inGrace then 30 else 0)
  ∧ ((businessRule inGrace days).2.1 = 1 ↔ 90 + (if inGrace then 30 else 0) ≤ days)
  ∧ businessRule false 89 = (90, 0, "Recent purchase within last 90 days")
  ∧ businessRule false 90 = (90, 1, "No purchases for 90 days") := by
  refine ⟨rfl, ?_, by decide, by decide⟩
  by_cases h : 90 + (if inGrace then 30 else 0) ≤ days <;>
    simp [businessRule, h]

/-- C9: a missing (NaN) `in_renewal_grace` cell is cast by
`astype(bool)` to `True` before `fillna(False)` can act, so the record
is treated as in the grace period and its business-rule threshold is
120 days, not 90. -/
theorem inGrace_nan_extends_threshold :
    inGraceOf PdCell.nan = true
  ∧ (∀ days : ℕ, (businessRule (inGraceOf PdCell.nan) days).1 = 120) :=
  ⟨rfl, fun _ => rfl⟩

lemma selectLoop_cons (pred : Int) (contrib : List ℚ) (d : ℕ → String)
    (idx : ℕ) (rest : List ℕ) (acc : List String) :
    selectLoop pred contrib d (idx :: rest) acc =
      if 3 ≤ acc.length then acc
      else if pred = 1 ∧ contrib.getD idx 0 ≤ 0 then selectLoop pred contrib d rest acc
      else if d idx = "" then selectLoop pred contrib d rest acc
      else selectLoop pred contrib d rest (acc ++ [d idx]) := rfl

lemma mem_insertDesc (key : ℕ → ℚ) (x : ℕ) :
    ∀ (l : List ℕ) (i : ℕ), i ∈ insertDesc key x l → i = x ∨ i ∈ l := by
  intro l
  induction l with
  | nil => intro i hi; simpa [insertDesc] using hi
  | cons j rest ih =>
    intro i hi
    rw [insertDesc] at hi
    split_ifs at hi with h
    · rcases List.mem_cons.mp hi with h1 | h2
      · exact Or.inl h1
      · exact Or.inr h2
    · rcases List.mem_cons.mp hi with h1 | h2
      · exact Or.inr (h1 ▸ List.mem_cons_self j rest)
      · rcases ih i h2 with h3 | h4
        · exact Or.inl h3
        · exact Or.inr (List.mem_cons_of_mem j h4)

lemma mem_sortDesc (key : ℕ → ℚ) :
    ∀ (l : List ℕ) (i : ℕ), i ∈ sortDesc key l → i ∈ l := by
  intro l
  induction l with
  | nil => intro i hi; simp [sortDesc] at hi
  | cons j rest ih =>
    intro i hi
    rw [sortDesc] at hi
    rcases mem_insertDesc key j (sortDesc key rest) i hi with h1 | h2
    · exact h1 ▸ List.mem_cons_self j rest
    · exact List.mem_cons_of_mem j (ih i h2)

lemma mem_orderFor (pred : Int) (contrib : List ℚ) (i : ℕ)
    (h : i ∈ orderFor pred contrib) : i < contrib.length := by
  unfold orderFor at h
  split_ifs at h <;> exact List.mem_range.mp (mem_sortDesc _ _ _ h)

lemma selectLoop_length_le (pred : Int) (contrib : List ℚ) (d : ℕ → String) :
    ∀ (idxs : List ℕ) (acc : List String), acc.length ≤ 3 →
      (selectLoop pred contrib d idxs acc).length ≤ 3 := by
  intro idxs
  induction idxs with
  | nil => intro acc h; exact h
  | cons idx rest ih =>
    intro acc h
    rw [selectLoop_cons]
    split_ifs with h3 hc hd
    · exact h
    · exact ih acc h
    · exact ih acc h
    · apply ih
      have : acc.length < 3 := lt_of_not_le h3
      simp only [List.length_append, List.length_singleton]
      omega

lemma selectLoop_one_mem (contrib : List ℚ) (d : ℕ → String) :
    ∀ (idxs : List ℕ) (acc : List String),
      (∀ i ∈ idxs, i < contrib.length) →
      (∀ p ∈ acc, ∃ i, i < contrib.length ∧ 0 < contrib.getD i 0 ∧ d i = p) →
      ∀ p ∈ selectLoop 1 contrib d idxs acc,
        ∃ i, i < contrib.length ∧ 0 < contrib.getD i 0 ∧ d i = p := by
  intro idxs
  induction idxs with
  | nil => intro acc _ hacc p hp; exact hacc p hp
  | cons idx rest ih =>
    intro acc hidx hacc p hp
    rw [selectLoop_cons] at hp
    split_ifs at hp with h3 hc hd
    · exact hacc p hp
    · exact ih acc (fun i hi => hidx i (List.mem_cons_of_mem idx hi)) hacc p hp
    · exact ih acc (fun i hi => hidx i (List.mem_cons_of_mem idx hi)) hacc p hp
    · refine ih (acc ++ [d idx]) (fun i hi => hidx i (List.mem_cons_of_mem idx hi)) ?_ p hp
      intro q hq
      rcases List.mem_append.mp hq with h1 | h2
      · exact hacc q h1
      · have hq' : q = d idx := by simpa using h2
        refine ⟨idx, hidx idx (List.mem_cons_self idx rest), ?_, hq'.symm⟩
        have : ¬ contrib.getD idx 0 ≤ 0 := fun hle => hc ⟨rfl, hle⟩
        exact lt_of_not_le this

lemma selectLoop_one_nonpos (contrib : List ℚ) (d : ℕ → String) :
    ∀ (idxs : List ℕ), (∀ i ∈ idxs, contrib.getD i 0 ≤ 0 ∨ d i = "") →
      ∀ acc, selectLoop 1 contrib d idxs acc = acc := by
  intro idxs
  induction idxs with
  | nil => intro _ acc; rfl
  | cons idx rest ih =>
    intro h acc
    rw [selectLoop_cons]
    split_ifs with h3 hc hd
    · rfl
    · exact ih (fun i hi => h i (List.mem_cons_of_mem idx hi)) acc
    · exact ih (fun i hi => h i (List.mem_cons_of_mem idx hi)) acc
    · rcases h idx (List.mem_cons_self idx rest) with hle | hblank
      · exact absurd ⟨rfl, hle⟩ hc
      · exact absurd hblank hd

/-- C3: for a row predicted churned (label 1), the phrase list is
selected so that every kept phrase renders a feature with strictly
positive contribution, at most 3 phrases are kept, and when every
contribution is non-positive (so nothing qualifies, which also covers
the case of no phrase rendering) the reason is the fixed generic
fallback string. -/
theorem selectPhrases_churn_policy (contrib : List ℚ) (d : ℕ → String) :
    (selectPhrases 1 contrib d).length ≤ 3
  ∧ (∀ p ∈ selectPhrases 1 contrib d,
      ∃ i, i < contrib.length ∧ 0 < contrib.getD i 0 ∧ d i = p)
  ∧ ((∀ i, i < contrib.length → contrib.getD i 0 ≤ 0 ∨ d i = "") →
      rowReason 1 contrib d = fallbackPhrase) := by
  refine ⟨?_, ?_, ?_⟩
  · exact selectLoop_length_le 1 contrib d _ [] (by simp)
  · exact selectLoop_one_mem contrib d _ []
      (fun i hi => mem_orderFor 1 contrib i hi) (by simp)
  · intro h
    have he : selectPhrases 1 contrib d = [] :=
      selectLoop_one_nonpos contrib d _
        (fun i hi => h i (mem_orderFor 1 contrib i hi)) []
    simp [rowReason, he]

/-- Witness for C3 at a concrete all-nonpositive contribution vector. -/
theorem selectPhrases_churn_policy_witness :
    (∀ i, i < [(-1 : ℚ), -2].length →
      [(-1 : ℚ), -2].getD i 0 ≤ 0 ∨ (fun _ : ℕ => "phrase") i = "")
  ∧ rowReason 1 [(-1 : ℚ), -2] (fun _ => "phrase") = fallbackPhrase :=
  ⟨by decide, (selectPhrases_churn_policy [(-1 : ℚ), -2] (fun _ => "phrase")).2.2 (by decide)⟩

lemma buildReasons_length :
    ∀ steps : List (Except String String), (buildReasons steps).length = steps.length := by
  intro steps
  induction steps with
  | nil => rfl
  | cons s rest ih =>
    cases s with
    | ok r => simpa [buildReasons] using ih
    | error e => simp [buildReasons]

lemma getD_map_blank {α : Type} :
    ∀ (l : List α) (i : ℕ), (l.map (fun _ => "")).getD i "" = "" := by
  intro l
  induction l with
  | nil => intro i; rfl
  | cons a rest ih =>
    intro i
    cases i with
    | zero => rfl
    | succ j => simp only [List.getD, List.getElem?_cons_succ]; exact ih j

lemma buildReasons_getD_error :
    ∀ (steps : List (Except String String)) (i : ℕ) (e : String),
      steps.getD i (.ok "") = .error e → (buildReasons steps).getD i "" = "" := by
  intro steps
  induction steps with
  | nil => intro i e he; simp [List.getD] at he
  | cons s rest ih =>
    intro i e he
    cases i with
    | zero =>
      cases s with
      | ok r => simp [List.getD] at he
      | error e' => rfl
    | succ j =>
      cases s with
      | ok r =>
        have := ih j e (by simpa [List.getD] using he)
        simpa [buildReasons, List.getD] using this
      | error e' =>
        show (("" :: rest.map (fun _ => "")).getD (j + 1) "") = ""
        simp only [List.getD, List.getElem?_cons_succ]
        exact getD_map_blank rest j

/-- C2 counterexample: a concrete run in which the explanation of the
only row raises.  `train_and_predict` returns normally (the error is
caught and does not propagate), but the row's reason is the empty
string, not the fixed generic fallback phrase. -/
theorem explanation_error_blank_counterexample :
    trainAndPredict [[0]] (some [0]) (fun _ => [1]) [[0]]
        (fun _ => .error "shap attribution failed")
      = .ok ⟨[1], [1], [""]⟩
  ∧ "" ≠ fallbackPhrase := by
  constructor
  · norm_num [trainAndPredict, preTransform, buildReasons, List.range_succ]
  · decide

/-- C2 as amended: an error while computing a row's explanation never
propagates (the run still returns normally for every labelled input,
whatever the per-row outcomes), but the failing row's reason is left as
the empty string — not the generic fallback phrase — and the reasons
list keeps one entry per row. -/
theorem explanation_error_blank (steps : List (Except String String))
    (i : ℕ) (e : String) (he : steps.getD i (.ok "") = .error e) :
    (buildReasons steps).length = steps.length
  ∧ (buildReasons steps).getD i "" = ""
  ∧ (∀ (X : List (List ℚ)) (y : List Int) (fp : List Int → List ℚ)
       (Xt : List (List ℚ)) (rs : ℕ → Except String String),
      ∃ out, trainAndPredict X (some y) fp Xt rs = .ok out) :=
  ⟨buildReasons_length steps, buildReasons_getD_error steps i e he,
    fun _ _ _ _ _ => ⟨_, rfl⟩⟩

/-- Witness for C2's amended statement at a concrete failing step list. -/
theorem explanation_error_blank_witness :
    ([Except.error "boom", Except.ok "fine"].getD 0 (Except.ok "") = Except.error "boom")
  ∧ (buildReasons [Except.error "boom", Except.ok "fine"]).length
      = [Except.error "boom", Except.ok "fine"].length
  ∧ (buildReasons [Except.error "boom", Except.ok "fine"]).getD 0 "" = "" :=
  ⟨rfl,
    (explanation_error_blank [Except.error "boom", Except.ok "fine"] 0 "boom" rfl).1,
    (explanation_error_blank [Except.error "boom", Except.ok "fine"] 0 "boom" rfl).2.1⟩

/-- C1: contrary to the claim (and to the code's own stated intent of a
degraded zero-probability mode), when no label column is supplied the
pipeline is never fitted, yet `pre.transform(X)` is still called at
ml.py line 310 outside any exception handler, so `train_and_predict`
raises sklearn's `NotFittedError` for every unlabeled input instead of
returning zeros. -/
theorem trainAndPredict_unlabeled_raises (X : List (List ℚ))
    (fp : List Int → List ℚ) (Xt : List (List ℚ))
    (rs : ℕ → Except String String) :
    trainAndPredict X none fp Xt rs = .error "NotFittedError" := rfl

lemma colEntries_const (M : List (List ℚ)) (j : ℕ) (c : ℚ)
    (h : ∀ row ∈ M, row.getD j 0 = c) :
    colEntries M j = List.replicate M.length c := by
  unfold colEntries
  refine List.eq_replicate_iff.mpr ⟨by simp, ?_⟩
  intro b hb
  rcases List.mem_map.mp hb with ⟨row, hrow, rfl⟩
  exact h row hrow

lemma colMean_const (M : List (List ℚ)) (j : ℕ) (c : ℚ) (hM : M ≠ [])
    (h : ∀ row ∈ M, row.getD j 0 = c) : colMean M j = c := by
  have hn : (M.length : ℚ) ≠ 0 := by
    have := List.length_pos.mpr hM
    positivity
  unfold colMean
  rw [colEntries_const M j c h, List.sum_replicate, nsmul_eq_mul]
  exact mul_div_cancel_left₀ c hn

lemma colVar_const (M : List (List ℚ)) (j : ℕ) (c : ℚ) (hM : M ≠ [])
    (h : ∀ row ∈ M, row.getD j 0 = c) : colVar M j = 0 := by
  unfold colVar
  rw [colEntries_const M j c h, List.map_replicate]
  simp [colMean_const M j c hM h]

/-- C8: the zero-variance safeguard.  For a feature matrix with a
constant column `j`, the fitted scale of that column is the safeguard
value 1 — in particular never the zero that a literal standard
deviation would give — every standardized entry of the column is
exactly 0 (not a division by zero), and every logistic probability lies
strictly between 0 and 1, so the predicted probabilities are
well-defined finite numbers. -/
theorem constColumn_standardizes_to_zero (M : List (List ℚ)) (j : ℕ) (c : ℚ)
    (hM : M ≠ []) (hconst : ∀ row ∈ M, row.getD j 0 = c) :
    stdScale M j = 1
  ∧ stdScale M j ≠ 0
  ∧ (∀ i, i < M.length → standardized M i j = 0)
  ∧ (∀ w : ℝ, 0 < sigmoid w ∧ sigmoid w < 1) := by
  have hvar : colVar M j = 0 := colVar_const M j c hM hconst
  have hscale : stdScale M j = 1 := by
    unfold stdScale
    rw [hvar]
    simp
  refine ⟨hscale, by rw [hscale]; exact one_ne_zero, ?_, ?_⟩
  · intro i hi
    have hrow : M.getD i [] ∈ M := by
      rw [List.getD_eq_getElem M [] hi]
      exact List.getElem_mem hi
    unfold standardized
    rw [hscale, hconst _ hrow, colMean_const M j c hM hconst]
    simp
  · intro w
    have hexp : 0 < Real.exp (-w) := Real.exp_pos _
    unfold sigmoid
    constructor
    · positivity
    · rw [div_lt_one (by positivity)]
      linarith

/-- Witness for C8 at a concrete matrix whose first column is constant. -/
theorem constColumn_standardizes_to_zero_witness :
    ([[1, 5], [1, 7], [1, 9]] : List (List ℚ)) ≠ []
  ∧ (∀ row ∈ ([[1, 5], [1, 7], [1, 9]] : List (List ℚ)), row.getD 0 0 = 1)
  ∧ stdScale [[1, 5], [1, 7], [1, 9]] 0 = 1 :=
  ⟨by decide, by decide,
    (constColumn_standardizes_to_zero [[1, 5], [1, 7], [1, 9]] 0 1
      (by decide) (by decide)).1⟩

end PyMLChurn
